import Mathlib

/-!
Verification of the wifi-rs wireless-control library: a shallow embedding of
the two platform backends (`src/connectivity/providers/linux.rs`, Family A,
and `src/connectivity/providers/windows.rs`, Family B) together with proofs
about their scan parsers and connection controllers.

External collaborators (the process executor, the radio-state gate and the
profile provisioning handler) are modelled as explicit parameters, exactly as
the spec scopes them out; every command the controllers would spawn is
recorded in an explicit trace so that "performs zero external command
invocations" is a provable statement.
-/

set_option maxRecDepth 4000

/-! ## String utilities

Rust's `str::split_whitespace`, `str::lines`, `str::contains` and
`str::parse::<i8>` are modelled character-exactly on `List Char`.
-/

/-- Tail worker for whitespace splitting: `acc` holds the current token in
reverse.  Mirrors Rust `split_whitespace` (empty tokens never produced). -/
def splitWSgo : List Char → List Char → List (List Char)
  | [], acc => if acc = [] then [] else [acc.reverse]
  | c :: cs, acc =>
    if c.isWhitespace then
      if acc = [] then splitWSgo cs [] else acc.reverse :: splitWSgo cs []
    else splitWSgo cs (c :: acc)

/-- Model of Rust `str::split_whitespace` collected into a list. -/
def splitWS (s : String) : List String :=
  (splitWSgo s.toList []).map (fun cs => String.mk cs)

/-- Does `pat` occur at the head of `s`? -/
def matchesAt : List Char → List Char → Bool
  | [], _ => true
  | _ :: _, [] => false
  | p :: ps, c :: cs => p = c && matchesAt ps cs

/-- Does `pat` occur anywhere in `s`?  Model of Rust `str::contains`. -/
def hasSub (pat : List Char) : List Char → Bool
  | [] => matchesAt pat []
  | c :: cs => matchesAt pat (c :: cs) || hasSub pat cs

/-- `strHasSub s pat` models Rust `s.contains(pat)`. -/
def strHasSub (s pat : String) : Bool :=
  hasSub pat.toList s.toList

/-- Split a character stream at newline characters (keeps empty pieces),
the worker behind `rustLines`. -/
def splitNlGo : List Char → List Char → List String
  | [], acc => [String.mk acc.reverse]
  | c :: cs, acc =>
    if c = '\n' then String.mk acc.reverse :: splitNlGo cs [] else splitNlGo cs (c :: acc)

/-- Strip one trailing carriage return, as Rust `str::lines` does. -/
def stripCr (l : String) : String :=
  match l.toList.getLast? with
  | some c => if c = '\r' then String.mk l.toList.dropLast else l
  | none => l

/-- Model of Rust `str::lines`: split on newline terminators; a trailing
newline does not yield a final empty line. -/
def rustLines (s : String) : List String :=
  let parts := splitNlGo s.toList []
  let parts := if parts.getLast? = some "" then parts.dropLast else parts
  parts.map stripCr

/-- Digit value of an ASCII digit character. -/
def digitVal (c : Char) : Nat := c.toNat - 48

/-- Accumulate a decimal number; fails on the first non-digit. -/
def parseDigitsGo : List Char → Nat → Option Nat
  | [], acc => some acc
  | c :: cs, acc => if c.isDigit then parseDigitsGo cs (acc * 10 + digitVal c) else none

/-- Model of Rust `str::parse::<i8>()`: optional sign, one or more decimal
digits, value in `[-128, 127]`; anything else is an error (`none`). -/
def parseI8 (s : String) : Option Int :=
  let p : Bool × List Char :=
    match s.toList with
    | '+' :: rest => (false, rest)
    | '-' :: rest => (true, rest)
    | cs => (false, cs)
  match p.2 with
  | [] => none
  | _ :: _ =>
    match parseDigitsGo p.2 0 with
    | none => none
    | some n =>
      let v : Int := if p.1 then -(n : Int) else (n : Int)
      if -128 ≤ v ∧ v ≤ 127 then some v else none

/-! ## Canonical data model (src/platforms) -/

/-- One scan result row (`AvailableWifi` in the source). -/
structure AvailableWifi where
  ssid : String
  mac : String
  channel : String
  signal_level : String
  security : String
  in_use : Bool
deriving Repr, DecidableEq

/-- The recorded active connection (`Connection` in the source). -/
structure Connection where
  ssid : String
deriving Repr, DecidableEq

/-- The wireless interface object (`WiFi` in the source): an interface name
plus the optional recorded `ActiveConnection`. -/
structure WiFi where
  interface : String
  connection : Option Connection
deriving Repr, DecidableEq

/-- Error kinds from `src/platforms` / `src/connectivity`; the payload of
`IoError` is the I/O failure's message. -/
inductive WifiError where
  | WifiDisabled
  | IoError (msg : String)
deriving Repr, DecidableEq

/-- Connection-level error kinds (`WifiConnectionError` in the source). -/
inductive WifiConnectionError where
  | FailedToConnect (msg : String)
  | FailedToDisconnect (msg : String)
  | AddNetworkProfileFailed
  | Other (kind : WifiError)
deriving Repr, DecidableEq

/-- An external command invocation: program name and argument vector. -/
structure Cmd where
  program : String
  args : List String
deriving Repr, DecidableEq

/-- Outcome of running one external command: captured stdout (already decoded
the way `String::from_utf8_lossy` would) or a spawn/run failure message. -/
abbrev ExecResult := Except String String

/-- The process-executor capability: external collaborator per the spec. -/
abbrev Exec := Cmd → ExecResult

/-! ## Family A controller (linux.rs) -/

/-- The nmcli connect invocation built at linux.rs lines 15-27. -/
def Linux.connectCmd (ssid password iface : String) : Cmd :=
  ⟨"nmcli", ["d", "wifi", "connect", ssid, "password", password, "ifname", iface]⟩

/-- `connect` from linux.rs lines 8-41.  `radio` is the outcome of the
external `WiFi::is_wifi_enabled()` gate; the third component of the result is
the trace of external commands actually spawned. -/
def Linux.connect (radio : Except WifiError Bool) (exec : Exec) (w : WiFi)
    (ssid password : String) :
    Except WifiConnectionError Bool × WiFi × List Cmd :=
  match radio with
  | .error e => (.error (.Other e), w, [])
  | .ok false => (.error (.Other .WifiDisabled), w, [])
  | .ok true =>
    let cmd := Linux.connectCmd ssid password w.interface
    match exec cmd with
    | .error err => (.error (.FailedToConnect err), w, [cmd])
    | .ok out =>
      if !strHasSub out "successfully activated" then (.ok false, w, [cmd])
      else (.ok true, { w with connection := some ⟨ssid⟩ }, [cmd])

/-- The nmcli disconnect invocation built at linux.rs line 45-47. -/
def Linux.disconnectCmd (iface : String) : Cmd :=
  ⟨"nmcli", ["d", "disconnect", "ifname", iface]⟩

/-- `disconnect` from linux.rs lines 44-53.  The source takes `&self`, so the
interface state is returned unchanged by construction. -/
def Linux.disconnect (exec : Exec) (w : WiFi) :
    Except WifiConnectionError Bool × WiFi :=
  match exec (Linux.disconnectCmd w.interface) with
  | .error err => (.error (.FailedToDisconnect err), w)
  | .ok out => (.ok (strHasSub out "disconnect"), w)

/-! ## Family A scan parser (linux.rs, Grammar A) -/

/-- The fixed-order field extraction of linux.rs lines 77-83, starting after
the BSSID has been read: SSID, channel, signal, security, and an optional
alternate security token that overrides the primary when non-empty.  `none`
models an `unwrap` panic on a missing token.  (The source spells the optional
read `if let Ok`, read here as the evident `if let Some` over the token
iterator.) -/
def parseFieldsA (in_use : Bool) (mac : String) (toks : List String) :
    Option AvailableWifi :=
  match toks with
  | ssid :: channel :: signal_level :: security :: rest =>
    let alt : String :=
      match rest with
      | a :: _ => a
      | [] => ""
    some { ssid, mac, channel, signal_level,
           security := if alt = "" then security else alt, in_use }
  | _ => none

/-- One line of the Grammar A body, linux.rs lines 70-92: outer `none` is an
`unwrap` panic, `some none` a skipped "IN-USE" header repeat, `some (some r)`
a parsed record. -/
def Linux.parseLine (line : String) : Option (Option AvailableWifi) :=
  match splitWS line with
  | [] => none
  | temp :: parts =>
    if temp = "IN-USE" then some none
    else if temp = "*" then
      match parts with
      | [] => none
      | mac :: parts2 => (parseFieldsA true mac parts2).map some
    else (parseFieldsA false temp parts).map some

/-- The scan loop of linux.rs lines 69-95 over the post-header lines. -/
def Linux.scanGo : List String → Option (List AvailableWifi)
  | [] => some []
  | l :: ls =>
    match Linux.parseLine l with
    | none => none
    | some none => Linux.scanGo ls
    | some (some r) => (Linux.scanGo ls).map (fun rs => r :: rs)

/-- Grammar A scan parsing over a line list: linux.rs line 68 discards the
header line, then the loop runs.  `none` models a panic. -/
def Linux.scanLines (lines : List String) : Option (List AvailableWifi) :=
  Linux.scanGo (lines.drop 1)

/-- Grammar A scan parsing of the captured stdout text. -/
def Linux.scanOutput (out : String) : Option (List AvailableWifi) :=
  Linux.scanLines (rustLines out)

/-! ## Family B controller (windows.rs) -/

/-- The netsh profile-import invocation built at windows.rs lines 19-27. -/
def Windows.addProfileCmd (path : String) : Cmd :=
  ⟨"netsh", ["wlan", "add", "profile", "filename=" ++ path]⟩

/-- `add_profile` from windows.rs lines 10-30.  The XML handler and temp-file
write are the excluded provisioning collaborator: `profile` is the outcome of
`write_to_temp_file` (the temp file's path, or the propagated error).  The
netsh output is ignored; only a spawn failure maps to
`AddNetworkProfileFailed`. -/
def Windows.add_profile (profile : Except WifiConnectionError String)
    (exec : Exec) : Except WifiConnectionError Unit × List Cmd :=
  match profile with
  | .error e => (.error e, [])
  | .ok path =>
    let cmd := Windows.addProfileCmd path
    match exec cmd with
    | .error _ => (.error .AddNetworkProfileFailed, [cmd])
    | .ok _ => (.ok (), [cmd])

/-- The netsh connect invocation built at windows.rs lines 45-48. -/
def Windows.connectCmd (ssid : String) : Cmd :=
  ⟨"netsh", ["wlan", "connect", "name=" ++ ssid]⟩

/-- `connect` from windows.rs lines 36-62: radio gate, then profile creation,
then the netsh connect command. -/
def Windows.connect (radio : Except WifiError Bool)
    (profile : Except WifiConnectionError String) (exec : Exec) (w : WiFi)
    (ssid : String) :
    Except WifiConnectionError Bool × WiFi × List Cmd :=
  match radio with
  | .error e => (.error (.Other e), w, [])
  | .ok false => (.error (.Other .WifiDisabled), w, [])
  | .ok true =>
    match Windows.add_profile profile exec with
    | (.error e, tr) => (.error e, w, tr)
    | (.ok _, tr) =>
      let cmd := Windows.connectCmd ssid
      match exec cmd with
      | .error err => (.error (.FailedToConnect err), w, tr ++ [cmd])
      | .ok out =>
        if !strHasSub out "completed successfully" then (.ok false, w, tr ++ [cmd])
        else (.ok true, { w with connection := some ⟨ssid⟩ }, tr ++ [cmd])

/-- The netsh disconnect invocation built at windows.rs lines 66-68. -/
def Windows.disconnectCmd : Cmd :=
  ⟨"netsh", ["wlan", "disconnect"]⟩

/-- `disconnect` from windows.rs lines 65-74; `&self`, state unchanged. -/
def Windows.disconnect (exec : Exec) (w : WiFi) :
    Except WifiConnectionError Bool × WiFi :=
  match exec Windows.disconnectCmd with
  | .error err => (.error (.FailedToDisconnect err), w)
  | .ok out => (.ok (strHasSub out "disconnect"), w)

/-! ## Family B scan parser (windows.rs, Grammar B) -/

/-- The fresh in-progress record of windows.rs lines 87-94 and 103-110. -/
def Windows.initRec : AvailableWifi :=
  { ssid := "", mac := "", channel := "", signal_level := "0",
    security := "", in_use := false }

/-- The loop state of the Grammar B parser: accumulated records, in-progress
record, pending BSSID and pending (stripped) signal token. -/
structure BState where
  acc : List AvailableWifi
  cur : AvailableWifi
  last_mac : String
  last_signal_level : String
deriving Repr, DecidableEq

/-- One iteration of the windows.rs scan loop (lines 97-171).  `none` models
the `unwrap` panic of the two `parse::<i8>()` calls on a "Channel" line. -/
def Windows.stepLine (st : BState) (line : String) : Option BState :=
  if line = "" then
    some { st with
      acc := if st.cur.mac ≠ "" then st.acc ++ [st.cur] else st.acc
      cur := Windows.initRec }
  else
    match splitWS line with
    | [] => some st
    | first :: parts =>
      if first = "Interface" ∨ first = "There" then some st
      else if first = "SSID" then
        match parts[2]? with
        | some s => some { st with cur := { st.cur with ssid := s } }
        | none => some st
      else if first = "Network" then some st
      else if first = "Authentication" then
        match parts[1]? with
        | some s => some { st with cur := { st.cur with security := s } }
        | none => some st
      else if first = "Encryption" then some st
      else if first = "BSSID" then
        match parts[2]? with
        | some m => some { st with last_mac := m }
        | none => some { st with last_mac := "" }
      else if first = "Signal" then
        match parts[1]? with
        | some t => some { st with last_signal_level := String.mk t.toList.dropLast }
        | none => some { st with last_signal_level := "0" }
      else if first = "Radio" then some st
      else if first = "Channel" then
        let last_channel := (parts[1]?).getD ""
        match parseI8 st.last_signal_level, parseI8 st.cur.signal_level with
        | some cv, some pv =>
          if cv > pv then
            some { st with cur := { st.cur with
              mac := st.last_mac, signal_level := st.last_signal_level,
              channel := last_channel } }
          else some st
        | _, _ => none
      else some st

/-- The Grammar B scan loop; after the last line the accumulated records are
returned with no final commit (windows.rs line 173). -/
def Windows.scanGo : BState → List String → Option (List AvailableWifi)
  | st, [] => some st.acc
  | st, l :: ls =>
    match Windows.stepLine st l with
    | none => none
    | some st' => Windows.scanGo st' ls

/-- Grammar B scan parsing over a line list, from the initial state of
windows.rs lines 87-96. -/
def Windows.scanLines (lines : List String) : Option (List AvailableWifi) :=
  Windows.scanGo ⟨[], Windows.initRec, "", ""⟩ lines

/-- Grammar B scan parsing of the captured stdout text. -/
def Windows.scanOutput (out : String) : Option (List AvailableWifi) :=
  Windows.scanLines (rustLines out)

/-! ## Grammar predicates and Grammar B block builders -/

/-- A single whitespace-free, non-empty token. -/
abbrev isToken (s : String) : Prop :=
  s.toList ≠ [] ∧ ∀ c ∈ s.toList, c.isWhitespace = false

/-- No whitespace characters at all (possibly empty). -/
abbrev noWs (s : String) : Prop :=
  ∀ c ∈ s.toList, c.isWhitespace = false

/-- Grammar A conformance of one data line with no "IN-USE" header repeat:
the token counts under which every `unwrap` of linux.rs lines 71-80
succeeds. -/
def wellFormedA (line : String) : Bool :=
  match splitWS line with
  | [] => false
  | t :: p =>
    if t = "IN-USE" then false
    else if t = "*" then decide (5 ≤ p.length)
    else decide (4 ≤ p.length)

/-- The token counts a Grammar A data line must satisfy for the parser not
to panic: either it is an "IN-USE" header repeat (skipped before any further
`unwrap`), or it supplies the full field count. -/
def tokenCountOkA (line : String) : Bool :=
  match splitWS line with
  | [] => false
  | t :: p =>
    t = "IN-USE" || (if t = "*" then decide (5 ≤ p.length) else decide (4 ≤ p.length))

/-- One (BSSID, Signal, Channel) triple of a Grammar B block, carrying the
signal both as the token text (before the appended `%`) and as its numeric
value. -/
structure TripleB where
  mac : String
  sigStr : String
  sigVal : Int
  chan : String
deriving Repr, DecidableEq

/-- Well-formedness of one triple: single-token BSSID and channel, a
whitespace-free signal string that parses (as the stripped `i8`) to the
recorded value. -/
abbrev goodTriple (t : TripleB) : Prop :=
  isToken t.mac ∧ noWs t.sigStr ∧ isToken t.chan ∧ parseI8 t.sigStr = some t.sigVal

/-- The three Grammar B lines reporting one access point. -/
def tripleBLines (t : TripleB) : List String :=
  ["BSSID 1 : " ++ t.mac, "Signal : " ++ (t.sigStr ++ "%"), "Channel : " ++ t.chan]

/-- A full Grammar B block: an SSID line, the triples, and the terminating
blank-line delimiter. -/
def blockBLines (ssid : String) (ts : List TripleB) : List String :=
  ("SSID 1 : " ++ ssid) :: ((ts.map tripleBLines).flatten ++ [""])

/-- The triple corresponding to the parser's freshly initialised record:
empty BSSID/channel, signal text "0" of value 0. -/
def initTriple : TripleB := ⟨"", "0", 0, ""⟩

/-- Modelled from the spec: "retain only the triple with the highest signal
value … tie-break: first-seen wins, since strictly-greater is the replace
condition".  The fold the winning triple of a block should satisfy. -/
def specBestTriple : TripleB → List TripleB → TripleB
  | best, [] => best
  | best, t :: ts => specBestTriple (if best.sigVal < t.sigVal then t else best) ts

/-- The record a Grammar B block should produce from its winning triple. -/
def recOfTriple (ssid : String) (b : TripleB) : AvailableWifi :=
  { ssid, mac := b.mac, channel := b.chan, signal_level := b.sigStr,
    security := "", in_use := false }

/-! ## Helper lemmas on strings and tokenization -/

theorem toList_append (a b : String) : (a ++ b).toList = a.toList ++ b.toList :=
  String.data_append a b

theorem mk_toList (s : String) : String.mk s.toList = s := rfl

theorem str_ne_empty_of_toList (s : String) (h : s.toList ≠ []) : s ≠ "" := by
  intro he
  exact h (by rw [he]; rfl)

theorem append_ne_empty (a b : String) (h : a.toList ≠ []) : a ++ b ≠ "" := by
  apply str_ne_empty_of_toList
  rw [toList_append]
  intro hc
  exact h (List.append_eq_nil.mp hc).1

theorem dropLast_app_single {α : Type} (l : List α) (a : α) :
    (l ++ [a]).dropLast = l := by
  induction l with
  | nil => rfl
  | cons x xs ih =>
    cases xs with
    | nil => rfl
    | cons y ys => simpa using ih

theorem splitWSgo_token (t : List Char) (rest acc : List Char)
    (ht : t ≠ []) (hw : ∀ c ∈ t, c.isWhitespace = false) :
    splitWSgo (t ++ ' ' :: rest) acc = (acc.reverse ++ t) :: splitWSgo rest [] := by
  induction t generalizing acc with
  | nil => exact absurd rfl ht
  | cons c cs ih =>
    have hc : c.isWhitespace = false := hw c (List.mem_cons_self c cs)
    simp only [List.cons_append, splitWSgo, hc, Bool.false_eq_true, if_false]
    cases cs with
    | nil =>
      simp only [List.nil_append, splitWSgo]
      rw [if_pos (by decide), if_neg (by simp)]
      simp
    | cons d ds =>
      simp only [List.append_eq]
      rw [ih (c :: acc) (by simp) (fun x hx => hw x (List.mem_cons_of_mem c hx))]
      simp

theorem splitWSgo_last (t : List Char) (acc : List Char)
    (hw : ∀ c ∈ t, c.isWhitespace = false) (hne : acc ≠ [] ∨ t ≠ []) :
    splitWSgo t acc = [acc.reverse ++ t] := by
  induction t generalizing acc with
  | nil =>
    rcases hne with h | h
    · simp [splitWSgo, h]
    · exact absurd rfl h
  | cons c cs ih =>
    have hc : c.isWhitespace = false := hw c (List.mem_cons_self c cs)
    simp only [splitWSgo, hc, Bool.false_eq_true, if_false]
    rw [ih (c :: acc) (fun x hx => hw x (List.mem_cons_of_mem c hx)) (Or.inl (by simp))]
    simp

theorem noWs_append_pct (s : String) (hs : noWs s) :
    ∀ c ∈ s.toList ++ ['%'], c.isWhitespace = false := by
  intro c hc
  rcases List.mem_append.mp hc with h | h
  · exact hs c h
  · simp only [List.mem_singleton] at h
    subst h
    decide

theorem splitWS_SSID (w : String) (hw : isToken w) :
    splitWS ("SSID 1 : " ++ w) = ["SSID", "1", ":", w] := by
  unfold splitWS
  rw [toList_append]
  have hsh : ("SSID 1 : ").toList ++ w.toList =
      ['S','S','I','D'] ++ ' ' :: (['1'] ++ ' ' :: ([':'] ++ ' ' :: w.toList)) := rfl
  rw [hsh, splitWSgo_token _ _ _ (by decide) (by decide),
      splitWSgo_token _ _ _ (by decide) (by decide),
      splitWSgo_token _ _ _ (by decide) (by decide),
      splitWSgo_last _ _ hw.2 (Or.inr hw.1)]
  rfl

theorem splitWS_BSSID (w : String) (hw : isToken w) :
    splitWS ("BSSID 1 : " ++ w) = ["BSSID", "1", ":", w] := by
  unfold splitWS
  rw [toList_append]
  have hsh : ("BSSID 1 : ").toList ++ w.toList =
      ['B','S','S','I','D'] ++ ' ' :: (['1'] ++ ' ' :: ([':'] ++ ' ' :: w.toList)) := rfl
  rw [hsh, splitWSgo_token _ _ _ (by decide) (by decide),
      splitWSgo_token _ _ _ (by decide) (by decide),
      splitWSgo_token _ _ _ (by decide) (by decide),
      splitWSgo_last _ _ hw.2 (Or.inr hw.1)]
  rfl

theorem splitWS_Signal (s : String) (hs : noWs s) :
    splitWS ("Signal : " ++ (s ++ "%")) = ["Signal", ":", s ++ "%"] := by
  unfold splitWS
  rw [toList_append]
  have h2 : (s ++ "%").toList = s.toList ++ ['%'] := by rw [toList_append]; rfl
  rw [h2]
  have hsh : ("Signal : ").toList ++ (s.toList ++ ['%']) =
      ['S','i','g','n','a','l'] ++ ' ' :: ([':'] ++ ' ' :: (s.toList ++ ['%'])) := rfl
  rw [hsh, splitWSgo_token _ _ _ (by decide) (by decide),
      splitWSgo_token _ _ _ (by decide) (by decide),
      splitWSgo_last _ _ (noWs_append_pct s hs) (Or.inr (by simp))]
  simp only [List.reverse_nil, List.nil_append, List.map]
  rw [← h2, mk_toList]

theorem splitWS_Channel (w : String) (hw : isToken w) :
    splitWS ("Channel : " ++ w) = ["Channel", ":", w] := by
  unfold splitWS
  rw [toList_append]
  have hsh : ("Channel : ").toList ++ w.toList =
      ['C','h','a','n','n','e','l'] ++ ' ' :: ([':'] ++ ' ' :: w.toList) := rfl
  rw [hsh, splitWSgo_token _ _ _ (by decide) (by decide),
      splitWSgo_token _ _ _ (by decide) (by decide),
      splitWSgo_last _ _ hw.2 (Or.inr hw.1)]
  rfl

theorem tok_ne_empty (s : String) (h : isToken s) : s ≠ "" :=
  str_ne_empty_of_toList s h.1

theorem stepLine_blank (st : BState) :
    Windows.stepLine st "" =
      some ⟨st.acc ++ (if st.cur.mac = "" then [] else [st.cur]),
        Windows.initRec, st.last_mac, st.last_signal_level⟩ := by
  by_cases h : st.cur.mac = "" <;>
    simp [Windows.stepLine, h]

theorem stepLine_SSID (st : BState) (w : String) (hw : isToken w) :
    Windows.stepLine st ("SSID 1 : " ++ w) =
      some { st with cur := { st.cur with ssid := w } } := by
  unfold Windows.stepLine
  rw [if_neg (append_ne_empty _ _ (by decide)), splitWS_SSID w hw]
  rfl

theorem stepLine_BSSID (st : BState) (w : String) (hw : isToken w) :
    Windows.stepLine st ("BSSID 1 : " ++ w) =
      some { st with last_mac := w } := by
  unfold Windows.stepLine
  rw [if_neg (append_ne_empty _ _ (by decide)), splitWS_BSSID w hw]
  rfl

theorem stepLine_Signal (st : BState) (s : String) (hs : noWs s) :
    Windows.stepLine st ("Signal : " ++ (s ++ "%")) =
      some { st with last_signal_level := s } := by
  have h2 : (s ++ "%").toList = s.toList ++ ['%'] := by rw [toList_append]; rfl
  have hred : Windows.stepLine st ("Signal : " ++ (s ++ "%")) =
      some { st with last_signal_level := String.mk ((s ++ "%").toList.dropLast) } := by
    unfold Windows.stepLine
    rw [if_neg (append_ne_empty _ _ (by decide)), splitWS_Signal s hs]
    rfl
  rw [hred, h2, dropLast_app_single, mk_toList]

theorem stepLine_Channel (st : BState) (w : String) (cv pv : Int)
    (hw : isToken w)
    (hsig : parseI8 st.last_signal_level = some cv)
    (hprev : parseI8 st.cur.signal_level = some pv) :
    Windows.stepLine st ("Channel : " ++ w) =
      some (if cv > pv then { st with cur := { st.cur with mac := st.last_mac, signal_level := st.last_signal_level, channel := w } } else st) := by
  have hred : Windows.stepLine st ("Channel : " ++ w) =
      (match parseI8 st.last_signal_level, parseI8 st.cur.signal_level with
        | some cv, some pv =>
          if cv > pv then
            some { st with cur := { st.cur with mac := st.last_mac, signal_level := st.last_signal_level, channel := w } }
          else some st
        | _, _ => none) := by
    unfold Windows.stepLine
    rw [if_neg (append_ne_empty _ _ (by decide)), splitWS_Channel w hw]
    rfl
  rw [hred, hsig, hprev]
  by_cases h : cv > pv <;> simp [h]

theorem scanGo_cons_some (st st' : BState) (l : String) (ls : List String)
    (h : Windows.stepLine st l = some st') :
    Windows.scanGo st (l :: ls) = Windows.scanGo st' ls := by
  conv_lhs => rw [Windows.scanGo, h]

theorem scanGo_triple (st : BState) (t : TripleB) (rest : List String) (pv : Int)
    (hg : goodTriple t) (hprev : parseI8 st.cur.signal_level = some pv) :
    Windows.scanGo st (tripleBLines t ++ rest) =
      Windows.scanGo { st with last_mac := t.mac, last_signal_level := t.sigStr, cur := if t.sigVal > pv then { st.cur with mac := t.mac, signal_level := t.sigStr, channel := t.chan } else st.cur } rest := by
  obtain ⟨hm, hs, hc, hp⟩ := hg
  show Windows.scanGo st (("BSSID 1 : " ++ t.mac) :: ("Signal : " ++ (t.sigStr ++ "%")) :: ("Channel : " ++ t.chan) :: rest) = _
  rw [scanGo_cons_some _ _ _ _ (stepLine_BSSID st t.mac hm)]
  rw [scanGo_cons_some _ _ _ _ (stepLine_Signal { st with last_mac := t.mac } t.sigStr hs)]
  rw [scanGo_cons_some _ _ _ _ (stepLine_Channel { st with last_mac := t.mac, last_signal_level := t.sigStr } t.chan t.sigVal pv hc hp hprev)]
  by_cases h : t.sigVal > pv <;> simp [h]

theorem specBestTriple_mem : ∀ (ts : List TripleB) (best : TripleB),
    specBestTriple best ts = best ∨ specBestTriple best ts ∈ ts := by
  intro ts
  induction ts with
  | nil => intro best; exact Or.inl rfl
  | cons t ts ih =>
    intro best
    rw [specBestTriple]
    by_cases h : best.sigVal < t.sigVal
    · rw [if_pos h]
      rcases ih t with h2 | h2
      · exact Or.inr (by rw [h2]; exact List.mem_cons_self t ts)
      · exact Or.inr (List.mem_cons_of_mem t h2)
    · rw [if_neg h]
      rcases ih best with h2 | h2
      · exact Or.inl h2
      · exact Or.inr (List.mem_cons_of_mem t h2)

theorem specBestTriple_le : ∀ (ts : List TripleB) (best : TripleB),
    best.sigVal ≤ (specBestTriple best ts).sigVal ∧
    ∀ t ∈ ts, t.sigVal ≤ (specBestTriple best ts).sigVal := by
  intro ts
  induction ts with
  | nil => intro best; exact ⟨le_refl _, by simp⟩
  | cons t ts ih =>
    intro best
    rw [specBestTriple]
    by_cases h : best.sigVal < t.sigVal
    · rw [if_pos h]
      obtain ⟨h1, h2⟩ := ih t
      refine ⟨le_of_lt (lt_of_lt_of_le h h1), ?_⟩
      intro u hu
      rcases List.mem_cons.mp hu with rfl | hu
      · exact h1
      · exact h2 u hu
    · rw [if_neg h]
      obtain ⟨h1, h2⟩ := ih best
      refine ⟨h1, ?_⟩
      intro u hu
      rcases List.mem_cons.mp hu with rfl | hu
      · exact le_trans (le_of_not_lt h) h1
      · exact h2 u hu

theorem specBestTriple_eq_or_lt : ∀ (ts : List TripleB) (best : TripleB),
    specBestTriple best ts = best ∨ best.sigVal < (specBestTriple best ts).sigVal := by
  intro ts
  induction ts with
  | nil => intro best; exact Or.inl rfl
  | cons t ts ih =>
    intro best
    rw [specBestTriple]
    by_cases h : best.sigVal < t.sigVal
    · rw [if_pos h]
      rcases ih t with h2 | h2
      · exact Or.inr (by rw [h2]; exact h)
      · exact Or.inr (lt_trans h h2)
    · rw [if_neg h]
      exact ih best

theorem scanGo_triples : ∀ (ts : List TripleB) (st : BState) (best : TripleB) (rest : List String),
    (∀ t ∈ ts, goodTriple t) →
    st.cur.mac = best.mac → st.cur.signal_level = best.sigStr →
    st.cur.channel = best.chan →
    parseI8 best.sigStr = some best.sigVal →
    ∃ lm ls, Windows.scanGo st ((ts.map tripleBLines).flatten ++ rest) =
      Windows.scanGo { st with cur := { st.cur with mac := (specBestTriple best ts).mac, signal_level := (specBestTriple best ts).sigStr, channel := (specBestTriple best ts).chan }, last_mac := lm, last_signal_level := ls } rest := by
  intro ts
  induction ts with
  | nil =>
    intro st best rest hg hmac hsig hchan hparse
    refine ⟨st.last_mac, st.last_signal_level, ?_⟩
    simp only [specBestTriple, List.map_nil, List.flatten_nil, List.nil_append]
    rw [← hmac, ← hsig, ← hchan]
  | cons t ts ih =>
    intro st best rest hg hmac hsig hchan hparse
    simp only [List.map_cons, List.flatten_cons, List.append_assoc]
    rw [scanGo_triple st t _ best.sigVal (hg t (List.mem_cons_self t ts)) (by rw [hsig]; exact hparse)]
    by_cases h : t.sigVal > best.sigVal
    · rw [if_pos h]
      obtain ⟨lm, ls, hres⟩ := ih
        { st with last_mac := t.mac, last_signal_level := t.sigStr, cur := { st.cur with mac := t.mac, signal_level := t.sigStr, channel := t.chan } }
        t rest (fun u hu => hg u (List.mem_cons_of_mem t hu)) rfl rfl rfl
        (hg t (List.mem_cons_self t ts)).2.2.2
      refine ⟨lm, ls, ?_⟩
      rw [hres]
      rw [specBestTriple, if_pos h]
    · rw [if_neg h]
      obtain ⟨lm, ls, hres⟩ := ih
        { st with last_mac := t.mac, last_signal_level := t.sigStr }
        best rest (fun u hu => hg u (List.mem_cons_of_mem t hu)) hmac hsig hchan hparse
      refine ⟨lm, ls, ?_⟩
      rw [hres]
      rw [specBestTriple, if_neg h]

/-! ## Claim C1 (Grammar B record commit) -/

/-- C1, counterexample: the claim says a completed record (non-empty BSSID)
is appended "when the blank-line delimiter is encountered or when input
ends".  On input whose final block is not followed by a blank line the record
is lost: the very same block with a trailing blank line yields the record,
proving it was completed, yet the input-end variant yields no record. -/
theorem c1_no_commit_at_input_end_counterexample :
    Windows.scanOutput "SSID 1 : Office\nBSSID 1 : 11:22:33:44:55:66\nSignal : 72%\nChannel : 10\n" = some []
    ∧ Windows.scanOutput "SSID 1 : Office\nBSSID 1 : 11:22:33:44:55:66\nSignal : 72%\nChannel : 10\n\n"
        = some [{ ssid := "Office", mac := "11:22:33:44:55:66", channel := "10", signal_level := "72", security := "", in_use := false }] :=
  ⟨rfl, rfl⟩

/-- C1, amended: a completed record (non-empty BSSID) is appended only when
the blank-line delimiter is encountered; a record that never acquired a
non-empty BSSID is dropped at that delimiter; and at input end the parser
returns the accumulated records with no final commit, so a pending record is
dropped there even when completed. -/
theorem c1_amended_commit_rule :
    ∀ st : BState,
      Windows.stepLine st "" =
        some ⟨st.acc ++ (if st.cur.mac = "" then [] else [st.cur]),
          Windows.initRec, st.last_mac, st.last_signal_level⟩
      ∧ Windows.scanGo st [] = some st.acc :=
  fun st => ⟨stepLine_blank st, rfl⟩

/-! ## Claim C2 (Grammar B strongest-triple selection) -/

/-- C2, counterexample: the claim promises exactly one record per block with
signal-level equal to the maximum of the triples' signals.  A block whose
only triple reports signal 0 produces no record at all (the in-progress
record starts at signal "0" and is replaced only on strictly greater), while
the identically shaped block with signal 72 does produce its record. -/
theorem c2_zero_signal_counterexample :
    Windows.scanOutput "SSID 1 : Office\nBSSID 1 : 11:22:33:44:55:66\nSignal : 0%\nChannel : 5\n\n" = some []
    ∧ Windows.scanOutput "SSID 1 : Office\nBSSID 1 : 11:22:33:44:55:66\nSignal : 72%\nChannel : 5\n\n"
        = some [{ ssid := "Office", mac := "11:22:33:44:55:66", channel := "5", signal_level := "72", security := "", in_use := false }] :=
  ⟨rfl, rfl⟩

/-- C2, amended: in any surrounding parser state, a blank-line-terminated
Grammar B block with well-formed (BSSID, Signal, Channel) triples appends
exactly one record — built from the winning triple selected by the
strictly-greater/first-seen-wins fold `specBestTriple`, so its mac, channel
and signal-level all come from that one triple, whose signal value is the
maximum over the block — provided that maximum is strictly positive;
when no triple's signal exceeds 0 the block appends no record. -/
theorem c2_amended_block_best_triple (ssid : String) (ts : List TripleB)
    (acc0 : List AvailableWifi) (lm0 ls0 : String) (rest : List String)
    (hssid : isToken ssid) (hts : ∀ t ∈ ts, goodTriple t) :
    ∃ lm ls,
      Windows.scanGo ⟨acc0, Windows.initRec, lm0, ls0⟩ (blockBLines ssid ts ++ rest)
        = Windows.scanGo ⟨acc0 ++ (if 0 < (specBestTriple initTriple ts).sigVal then [recOfTriple ssid (specBestTriple initTriple ts)] else []), Windows.initRec, lm, ls⟩ rest
      ∧ (∀ t ∈ ts, t.sigVal ≤ (specBestTriple initTriple ts).sigVal)
      ∧ (0 < (specBestTriple initTriple ts).sigVal → specBestTriple initTriple ts ∈ ts) := by
  have hmem : 0 < (specBestTriple initTriple ts).sigVal → specBestTriple initTriple ts ∈ ts := by
    intro hpos
    rcases specBestTriple_mem ts initTriple with h | h
    · rw [h] at hpos
      exact absurd hpos (by decide)
    · exact h
  have hl : blockBLines ssid ts ++ rest =
      ("SSID 1 : " ++ ssid) :: ((ts.map tripleBLines).flatten ++ ("" :: rest)) := by
    simp [blockBLines, List.append_assoc]
  rw [hl]
  rw [scanGo_cons_some _ _ _ _ (stepLine_SSID ⟨acc0, Windows.initRec, lm0, ls0⟩ ssid hssid)]
  obtain ⟨lm, ls, hres⟩ := scanGo_triples ts
    ⟨acc0, { Windows.initRec with ssid := ssid }, lm0, ls0⟩ initTriple
    ("" :: rest) hts rfl rfl rfl (by decide)
  rw [hres]
  rw [scanGo_cons_some _ _ _ _ (stepLine_blank _)]
  refine ⟨lm, ls, ?_, (specBestTriple_le ts initTriple).2, hmem⟩
  show Windows.scanGo ⟨acc0 ++ (if (specBestTriple initTriple ts).mac = "" then [] else [{ ssid := ssid, mac := (specBestTriple initTriple ts).mac, channel := (specBestTriple initTriple ts).chan, signal_level := (specBestTriple initTriple ts).sigStr, security := "", in_use := false }]), Windows.initRec, lm, ls⟩ rest = _
  by_cases hpos : 0 < (specBestTriple initTriple ts).sigVal
  · have hmac : (specBestTriple initTriple ts).mac ≠ "" :=
      tok_ne_empty _ (hts _ (hmem hpos)).1
    rw [if_neg hmac, if_pos hpos]
    rfl
  · have hB : specBestTriple initTriple ts = initTriple := by
      rcases specBestTriple_eq_or_lt ts initTriple with h | h
      · exact h
      · exact absurd h hpos
    rw [hB]
    simp [initTriple]

/-! ## Claims C3-C6 (connection controller) -/

/-- C3: with the radio gate reporting disabled, both backends return the
distinguished radio-disabled error, leave the interface untouched, and spawn
no external command at all — the Family B profile-creation outcome is never
even consulted (the result is the same for every `profile` argument). -/
theorem c3_radio_disabled_no_commands :
    ∀ (exec : Exec) (w : WiFi) (ssid password : String)
      (profile : Except WifiConnectionError String),
      Linux.connect (.ok false) exec w ssid password
        = (.error (.Other .WifiDisabled), w, [])
      ∧ Windows.connect (.ok false) profile exec w ssid
        = (.error (.Other .WifiDisabled), w, []) :=
  fun _ _ _ _ _ => ⟨rfl, rfl⟩

theorem linux_connect_cases (radio : Except WifiError Bool) (exec : Exec)
    (w : WiFi) (ssid password : String) :
    ((Linux.connect radio exec w ssid password).1 = .ok true ∧
      (Linux.connect radio exec w ssid password).2.1 = { w with connection := some ⟨ssid⟩ })
    ∨ ((Linux.connect radio exec w ssid password).1 ≠ .ok true ∧
      (Linux.connect radio exec w ssid password).2.1 = w) := by
  cases radio with
  | error e => exact Or.inr ⟨by simp [Linux.connect], rfl⟩
  | ok b =>
    cases b with
    | false => exact Or.inr ⟨by simp [Linux.connect], rfl⟩
    | true =>
      cases hx : exec (Linux.connectCmd ssid password w.interface) with
      | error err =>
        exact Or.inr ⟨by simp [Linux.connect, hx], by simp [Linux.connect, hx]⟩
      | ok out =>
        by_cases hc : strHasSub out "successfully activated"
        · exact Or.inl ⟨by simp [Linux.connect, hx, hc], by simp [Linux.connect, hx, hc]⟩
        · exact Or.inr ⟨by simp [Linux.connect, hx, hc], by simp [Linux.connect, hx, hc]⟩

theorem windows_connect_cases (radio : Except WifiError Bool)
    (profile : Except WifiConnectionError String) (exec : Exec)
    (w : WiFi) (ssid : String) :
    ((Windows.connect radio profile exec w ssid).1 = .ok true ∧
      (Windows.connect radio profile exec w ssid).2.1 = { w with connection := some ⟨ssid⟩ })
    ∨ ((Windows.connect radio profile exec w ssid).1 ≠ .ok true ∧
      (Windows.connect radio profile exec w ssid).2.1 = w) := by
  cases radio with
  | error e => exact Or.inr ⟨by simp [Windows.connect], rfl⟩
  | ok b =>
    cases b with
    | false => exact Or.inr ⟨by simp [Windows.connect], rfl⟩
    | true =>
      cases profile with
      | error e =>
        exact Or.inr ⟨by simp [Windows.connect, Windows.add_profile],
          by simp [Windows.connect, Windows.add_profile]⟩
      | ok path =>
        cases ha : exec (Windows.addProfileCmd path) with
        | error err =>
          exact Or.inr ⟨by simp [Windows.connect, Windows.add_profile, ha],
            by simp [Windows.connect, Windows.add_profile, ha]⟩
        | ok pout =>
          cases hx : exec (Windows.connectCmd ssid) with
          | error err =>
            exact Or.inr ⟨by simp [Windows.connect, Windows.add_profile, ha, hx],
              by simp [Windows.connect, Windows.add_profile, ha, hx]⟩
          | ok out =>
            by_cases hc : strHasSub out "completed successfully"
            · exact Or.inl ⟨by simp [Windows.connect, Windows.add_profile, ha, hx, hc],
                by simp [Windows.connect, Windows.add_profile, ha, hx, hc]⟩
            · exact Or.inr ⟨by simp [Windows.connect, Windows.add_profile, ha, hx, hc],
                by simp [Windows.connect, Windows.add_profile, ha, hx, hc]⟩

/-- C4: on both backends, a `connect` that returns `Ok(true)` records the
requested SSID as the active connection, and a `connect` that returns
`Ok(false)` or any error leaves the interface state exactly as it was. -/
theorem c4_connect_state_frame :
    ∀ (radio : Except WifiError Bool) (exec : Exec) (w : WiFi)
      (ssid password : String) (profile : Except WifiConnectionError String),
      ((Linux.connect radio exec w ssid password).1 = .ok true →
        (Linux.connect radio exec w ssid password).2.1.connection = some ⟨ssid⟩)
      ∧ ((Linux.connect radio exec w ssid password).1 ≠ .ok true →
        (Linux.connect radio exec w ssid password).2.1 = w)
      ∧ ((Windows.connect radio profile exec w ssid).1 = .ok true →
        (Windows.connect radio profile exec w ssid).2.1.connection = some ⟨ssid⟩)
      ∧ ((Windows.connect radio profile exec w ssid).1 ≠ .ok true →
        (Windows.connect radio profile exec w ssid).2.1 = w) := by
  intro radio exec w ssid password profile
  have hl := linux_connect_cases radio exec w ssid password
  have hwin := windows_connect_cases radio profile exec w ssid
  refine ⟨?_, ?_, ?_, ?_⟩
  · rcases hl with ⟨h1, h2⟩ | ⟨h1, h2⟩
    · intro _; rw [h2]
    · intro h; exact absurd h h1
  · rcases hl with ⟨h1, h2⟩ | ⟨h1, h2⟩
    · intro hne; exact absurd h1 hne
    · intro _; exact h2
  · rcases hwin with ⟨h1, h2⟩ | ⟨h1, h2⟩
    · intro _; rw [h2]
    · intro h; exact absurd h h1
  · rcases hwin with ⟨h1, h2⟩ | ⟨h1, h2⟩
    · intro hne; exact absurd h1 hne
    · intro _; exact h2

/-- C4 witness: a successful Family B connect records the requested SSID; a
Family A connect whose output lacks the marker leaves the state unchanged. -/
theorem c4_connect_state_frame_witness :
    (Windows.connect (.ok true) (.ok "profile.xml")
        (fun _ => .ok "Connection request was completed successfully.")
        ⟨"wlan0", none⟩ "HomeNet").2.1.connection = some ⟨"HomeNet"⟩
    ∧ (Linux.connect (.ok true) (fun _ => .ok "Error: no network found.")
        ⟨"wlan0", none⟩ "HomeNet" "pw").2.1 = ⟨"wlan0", none⟩ := by
  constructor
  · exact (c4_connect_state_frame (.ok true)
      (fun _ => .ok "Connection request was completed successfully.")
      ⟨"wlan0", none⟩ "HomeNet" "pw" (.ok "profile.xml")).2.2.1 rfl
  · exact (c4_connect_state_frame (.ok true)
      (fun _ => .ok "Error: no network found.")
      ⟨"wlan0", none⟩ "HomeNet" "pw" (.ok "profile.xml")).2.1
      (fun h => Bool.noConfusion (Except.ok.inj h))

/-- C5: on both backends `disconnect` returns `Ok(true)` exactly when the
captured output contains the `"disconnect"` marker substring, `Ok(false)`
otherwise, while a spawn/run failure surfaces as the distinct
`FailedToDisconnect` error rather than a boolean. -/
theorem c5_disconnect_marker_iff :
    ∀ (exec : Exec) (w : WiFi) (out err : String),
      (exec (Linux.disconnectCmd w.interface) = .ok out →
        ((Linux.disconnect exec w).1 = .ok true ↔ strHasSub out "disconnect" = true)
        ∧ (strHasSub out "disconnect" = false → (Linux.disconnect exec w).1 = .ok false))
      ∧ (exec (Linux.disconnectCmd w.interface) = .error err →
        (Linux.disconnect exec w).1 = .error (.FailedToDisconnect err))
      ∧ (exec Windows.disconnectCmd = .ok out →
        ((Windows.disconnect exec w).1 = .ok true ↔ strHasSub out "disconnect" = true)
        ∧ (strHasSub out "disconnect" = false → (Windows.disconnect exec w).1 = .ok false))
      ∧ (exec Windows.disconnectCmd = .error err →
        (Windows.disconnect exec w).1 = .error (.FailedToDisconnect err)) := by
  intro exec w out err
  refine ⟨?_, ?_, ?_, ?_⟩ <;> intro h <;>
    simp [Linux.disconnect, Windows.disconnect, h]

/-- C5 witness: output containing the marker yields `true`; a spawn failure
yields the `FailedToDisconnect` error. -/
theorem c5_disconnect_marker_iff_witness :
    (Linux.disconnect (fun _ => .ok "Device wlan0 successfully disconnected.") ⟨"wlan0", none⟩).1 = .ok true
    ∧ (Windows.disconnect (fun _ => .error "program not found") ⟨"wlan0", none⟩).1
        = .error (.FailedToDisconnect "program not found") := by
  constructor
  · exact ((c5_disconnect_marker_iff
      (fun _ => .ok "Device wlan0 successfully disconnected.") ⟨"wlan0", none⟩
      "Device wlan0 successfully disconnected." "e").1 rfl).1.mpr (by decide)
  · exact (c5_disconnect_marker_iff (fun _ => .error "program not found")
      ⟨"wlan0", none⟩ "o" "program not found").2.2.2 rfl

/-- C6: `disconnect` never touches the recorded ActiveConnection on either
backend — whatever the command outcome (`true`, `false` or error), the
interface value returned alongside the result is the input state itself. -/
theorem c6_disconnect_preserves_connection :
    ∀ (exec : Exec) (w : WiFi),
      (Linux.disconnect exec w).2 = w ∧ (Windows.disconnect exec w).2 = w := by
  intro exec w
  constructor
  · cases h : exec (Linux.disconnectCmd w.interface) <;> simp [Linux.disconnect, h]
  · cases h : exec Windows.disconnectCmd <;> simp [Windows.disconnect, h]

/-! ## Claim C9 (Grammar B signal stripping and i8 unwrap) -/

/-- C9: the Grammar B parser strips the final character of the Signal token
unconditionally — on a token `725` without any `%` the committed
signal-level is `72` — and on the "Channel" line both the pending and the
stored signal strings are parsed as `i8` with `unwrap`: a signal of `200%`
(outside `[-128,127]`) or `ab%` (non-numeric) makes `scan` panic (`none`)
instead of skipping the record or returning an error. -/
theorem c9_signal_strip_and_i8_unwrap :
    Windows.scanOutput "SSID 1 : Office\nBSSID 1 : 11:22:33:44:55:66\nSignal : 200%\nChannel : 5\n\n" = none
    ∧ Windows.scanOutput "SSID 1 : Office\nBSSID 1 : 11:22:33:44:55:66\nSignal : ab%\nChannel : 5\n\n" = none
    ∧ Windows.scanOutput "SSID 1 : Office\nBSSID 1 : 11:22:33:44:55:66\nSignal : 725\nChannel : 5\n\n"
        = some [{ ssid := "Office", mac := "11:22:33:44:55:66", channel := "5", signal_level := "72", security := "", in_use := false }] :=
  ⟨rfl, rfl, rfl⟩

/-! ## Claim C10 (Grammar B never sets in-use) -/

set_option maxHeartbeats 1600000 in
theorem stepLine_in_use_false (st st' : BState) (l : String)
    (h : Windows.stepLine st l = some st')
    (hcur : st.cur.in_use = false) (hacc : ∀ r ∈ st.acc, r.in_use = false) :
    st'.cur.in_use = false ∧ ∀ r ∈ st'.acc, r.in_use = false := by
  by_cases hb : l = ""
  · subst hb
    rw [stepLine_blank st] at h
    injection h with h
    subst h
    refine ⟨rfl, ?_⟩
    intro r hr
    by_cases hm : st.cur.mac = ""
    · rw [if_pos hm] at hr
      simp only [List.append_nil] at hr
      exact hacc r hr
    · rw [if_neg hm] at hr
      rcases List.mem_append.mp hr with hr | hr
      · exact hacc r hr
      · simp only [List.mem_singleton] at hr
        subst hr
        exact hcur
  · unfold Windows.stepLine at h
    rw [if_neg hb] at h
    repeat' split at h
    all_goals first
      | exact Option.noConfusion h
      | (injection h with h; subst h; exact ⟨hcur, hacc⟩)

theorem scanGo_cons_none (st : BState) (l : String) (ls : List String)
    (h : Windows.stepLine st l = none) :
    Windows.scanGo st (l :: ls) = none := by
  conv_lhs => rw [Windows.scanGo, h]

theorem scanGo_in_use_false : ∀ (ls : List String) (st : BState) (rs : List AvailableWifi),
    Windows.scanGo st ls = some rs → st.cur.in_use = false →
    (∀ r ∈ st.acc, r.in_use = false) → ∀ r ∈ rs, r.in_use = false := by
  intro ls
  induction ls with
  | nil =>
    intro st rs h h1 h2
    injection h with h
    subst h
    exact h2
  | cons l ls ih =>
    intro st rs h h1 h2
    cases hst : Windows.stepLine st l with
    | none => rw [scanGo_cons_none st l ls hst] at h; exact Option.noConfusion h
    | some st2 =>
      rw [scanGo_cons_some st st2 l ls hst] at h
      obtain ⟨g1, g2⟩ := stepLine_in_use_false st st2 l hst h1 h2
      exact ih st2 rs h g1 g2

/-- C10: every record the Grammar B parser ever emits has `in_use = false`:
each fresh in-progress record is initialised with `in_use := false` and no
branch of the loop ever writes that field. -/
theorem c10_in_use_always_false :
    ∀ (out : String) (rs : List AvailableWifi),
      Windows.scanOutput out = some rs → ∀ r ∈ rs, r.in_use = false := by
  intro out rs h
  exact scanGo_in_use_false (rustLines out) ⟨[], Windows.initRec, "", ""⟩ rs h rfl
    (fun r hr => absurd hr (List.not_mem_nil r))

/-- C10 witness: the record parsed from a concrete Grammar B scan indeed
carries `in_use = false`. -/
theorem c10_in_use_always_false_witness :
    ({ ssid := "Office", mac := "11:22:33:44:55:66", channel := "10", signal_level := "72", security := "WPA2-Personal", in_use := false } : AvailableWifi).in_use = false :=
  c10_in_use_always_false
    "SSID 1 : Office\nAuthentication : WPA2-Personal\nBSSID 1 : 11:22:33:44:55:66\nSignal : 72%\nChannel : 10\n\n"
    [{ ssid := "Office", mac := "11:22:33:44:55:66", channel := "10", signal_level := "72", security := "WPA2-Personal", in_use := false }]
    rfl _ (List.mem_singleton.mpr rfl)

/-! ## Claims C7-C8 (Grammar A line/record correspondence and panics) -/

theorem parseFieldsA_of_len (toks : List String) (in_use : Bool) (mac : String)
    (h : 4 ≤ toks.length) : ∃ r, parseFieldsA in_use mac toks = some r := by
  match toks with
  | a :: b :: c :: d :: rest => exact ⟨_, rfl⟩
  | [] => simp at h
  | [a] => simp at h
  | [a, b] => simp at h
  | [a, b, c] => simp at h

theorem parseFieldsA_len (toks : List String) (in_use : Bool) (mac : String)
    (r : AvailableWifi) (h : parseFieldsA in_use mac toks = some r) :
    4 ≤ toks.length := by
  match toks with
  | a :: b :: c :: d :: rest => simp
  | [] => exact Option.noConfusion h
  | [a] => exact Option.noConfusion h
  | [a, b] => exact Option.noConfusion h
  | [a, b, c] => exact Option.noConfusion h

theorem wellFormedA_parse (l : String) (h : wellFormedA l = true) :
    ∃ r, Linux.parseLine l = some (some r) := by
  unfold wellFormedA at h
  unfold Linux.parseLine
  cases hs : splitWS l with
  | nil => rw [hs] at h; exact Bool.noConfusion h
  | cons t p =>
    rw [hs] at h
    replace h : (if t = "IN-USE" then false
        else if t = "*" then decide (5 ≤ p.length) else decide (4 ≤ p.length)) = true := h
    by_cases ht : t = "IN-USE"
    · rw [if_pos ht] at h; exact Bool.noConfusion h
    · rw [if_neg ht] at h
      by_cases ht2 : t = "*"
      · rw [if_pos ht2] at h
        have h5 : 5 ≤ p.length := of_decide_eq_true h
        cases p with
        | nil => simp at h5
        | cons mac p2 =>
          have h4 : 4 ≤ p2.length := by simp at h5; omega
          obtain ⟨r, hr⟩ := parseFieldsA_of_len p2 true mac h4
          exact ⟨r, by simp [ht, ht2, hr]⟩
      · rw [if_neg ht2] at h
        have h4 : 4 ≤ p.length := of_decide_eq_true h
        obtain ⟨r, hr⟩ := parseFieldsA_of_len p false t h4
        exact ⟨r, by simp [ht, ht2, hr]⟩

theorem scanGoA_wellformed : ∀ (ls : List String),
    (∀ l ∈ ls, wellFormedA l = true) →
    ∃ rs, Linux.scanGo ls = some rs ∧ rs.length = ls.length := by
  intro ls
  induction ls with
  | nil => exact fun _ => ⟨[], rfl, rfl⟩
  | cons l ls ih =>
    intro h
    obtain ⟨r, hr⟩ := wellFormedA_parse l (h l (List.mem_cons_self l ls))
    obtain ⟨rs, hrs, hlen⟩ := ih (fun x hx => h x (List.mem_cons_of_mem l hx))
    refine ⟨r :: rs, ?_, by simp [hlen]⟩
    unfold Linux.scanGo
    rw [hr, hrs]
    rfl

/-- C7: on any Grammar A scan output whose post-header lines are all
well-formed data lines (full token count, no "IN-USE" header repeat), the
parser succeeds and emits exactly one record per non-header line. -/
theorem c7_grammar_a_record_count (out : String)
    (h : ∀ l ∈ (rustLines out).drop 1, wellFormedA l = true) :
    ∃ rs, Linux.scanOutput out = some rs
      ∧ rs.length = ((rustLines out).drop 1).length :=
  scanGoA_wellformed ((rustLines out).drop 1) h

/-- C7 witness: a concrete two-data-line Grammar A output yields exactly two
records. -/
theorem c7_grammar_a_record_count_witness :
    ∃ rs, Linux.scanOutput "IN-USE BSSID SSID CHAN SIGNAL SECURITY\nAA:BB:CC:DD:EE:FF HomeNet 6 80 WPA2\n* 11:22:33:44:55:66 Work 11 70 WPA1 WPA2\n" = some rs
      ∧ rs.length = ((rustLines "IN-USE BSSID SSID CHAN SIGNAL SECURITY\nAA:BB:CC:DD:EE:FF HomeNet 6 80 WPA2\n* 11:22:33:44:55:66 Work 11 70 WPA1 WPA2\n").drop 1).length :=
  c7_grammar_a_record_count
    "IN-USE BSSID SSID CHAN SIGNAL SECURITY\nAA:BB:CC:DD:EE:FF HomeNet 6 80 WPA2\n* 11:22:33:44:55:66 Work 11 70 WPA1 WPA2\n"
    (by decide)

theorem parseLine_tokenCountOk (l : String) (o : Option AvailableWifi)
    (h : Linux.parseLine l = some o) : tokenCountOkA l = true := by
  unfold Linux.parseLine at h
  unfold tokenCountOkA
  cases hs : splitWS l with
  | nil => rw [hs] at h; exact Option.noConfusion h
  | cons t p =>
    rw [hs] at h
    show (decide (t = "IN-USE") ||
      (if t = "*" then decide (5 ≤ p.length) else decide (4 ≤ p.length))) = true
    by_cases ht : t = "IN-USE"
    · subst ht
      rfl
    · replace h : (if t = "IN-USE" then some none
          else if t = "*" then
            (match p with
              | [] => none
              | mac :: parts2 => Option.map some (parseFieldsA true mac parts2))
          else Option.map some (parseFieldsA false t p)) = some o := h
      rw [if_neg ht] at h
      by_cases ht2 : t = "*"
      · subst ht2
        rw [if_pos rfl] at h
        cases p with
        | nil => exact Option.noConfusion h
        | cons mac p2 =>
          replace h : Option.map some (parseFieldsA true mac p2) = some o := h
          cases hf : parseFieldsA true mac p2 with
          | none => rw [hf] at h; exact Option.noConfusion h
          | some r =>
            have h4 := parseFieldsA_len p2 true mac r hf
            have h5 : 5 ≤ (mac :: p2).length := by simp; omega
            refine Bool.or_eq_true_iff.mpr (Or.inr ?_)
            rw [if_pos rfl]
            exact decide_eq_true h5
      · rw [if_neg ht2] at h
        cases hf : parseFieldsA false t p with
        | none => rw [hf] at h; exact Option.noConfusion h
        | some r =>
          have h4 := parseFieldsA_len p false t r hf
          refine Bool.or_eq_true_iff.mpr (Or.inr ?_)
          rw [if_neg ht2]
          exact decide_eq_true h4

theorem scanGoA_cons_none (x : String) (xs : List String)
    (h : Linux.parseLine x = none) : Linux.scanGo (x :: xs) = none := by
  conv_lhs => rw [Linux.scanGo, h]

theorem scanGoA_cons_skip (x : String) (xs : List String)
    (h : Linux.parseLine x = some none) : Linux.scanGo (x :: xs) = Linux.scanGo xs := by
  conv_lhs => rw [Linux.scanGo, h]

theorem scanGoA_cons_rec (x : String) (xs : List String) (r : AvailableWifi)
    (h : Linux.parseLine x = some (some r)) :
    Linux.scanGo (x :: xs) = (Linux.scanGo xs).map (fun rs => r :: rs) := by
  conv_lhs => rw [Linux.scanGo, h]

theorem scanGoA_tokens : ∀ (ls : List String) (rs : List AvailableWifi),
    Linux.scanGo ls = some rs → ∀ l ∈ ls, tokenCountOkA l = true := by
  intro ls
  induction ls with
  | nil => intro rs h l hl; exact absurd hl (List.not_mem_nil l)
  | cons x xs ih =>
    intro rs h l hl
    cases hp : Linux.parseLine x with
    | none => rw [scanGoA_cons_none x xs hp] at h; exact Option.noConfusion h
    | some o =>
      rcases List.mem_cons.mp hl with rfl | hl2
      · exact parseLine_tokenCountOk l o hp
      · cases o with
        | none =>
          rw [scanGoA_cons_skip x xs hp] at h
          exact ih rs h l hl2
        | some r =>
          rw [scanGoA_cons_rec x xs r hp] at h
          cases hg : Linux.scanGo xs with
          | none => rw [hg] at h; exact Option.noConfusion h
          | some rs2 => exact ih rs2 hg l hl2

/-- C8: a Grammar A data line with fewer than the required tokens (here a
line missing its security column) makes the parser panic (`none`) instead of
skipping or erroring; and conversely, whenever the scan returns a result,
every post-header line either was an "IN-USE" header repeat or supplied the
full token count (five tokens, or six after a leading `*`). -/
theorem c8_grammar_a_short_line_panic :
    Linux.scanOutput "IN-USE BSSID SSID CHAN SIGNAL SECURITY\nAA:BB:CC:DD:EE:FF HomeNet 6 80\n" = none
    ∧ ∀ (out : String) (rs : List AvailableWifi),
        Linux.scanOutput out = some rs →
        ∀ l ∈ (rustLines out).drop 1, tokenCountOkA l = true := by
  refine ⟨rfl, ?_⟩
  intro out rs h l hl
  exact scanGoA_tokens ((rustLines out).drop 1) rs h l hl

/-- C8 witness: the universal half applied to a succeeding concrete scan. -/
theorem c8_grammar_a_short_line_panic_witness :
    tokenCountOkA "AA:BB:CC:DD:EE:FF HomeNet 6 80 WPA2" = true :=
  c8_grammar_a_short_line_panic.2
    "IN-USE BSSID SSID CHAN SIGNAL SECURITY\nAA:BB:CC:DD:EE:FF HomeNet 6 80 WPA2\n"
    [{ ssid := "HomeNet", mac := "AA:BB:CC:DD:EE:FF", channel := "6", signal_level := "80", security := "WPA2", in_use := false }]
    rfl "AA:BB:CC:DD:EE:FF HomeNet 6 80 WPA2" (by decide)

/-- C2 witness: the amended block theorem applied to a concrete one-triple
block (signal 72 at BSSID 11:22:33:44:55:66, channel 10). -/
theorem c2_amended_block_best_triple_witness :
    ∃ lm ls,
      Windows.scanGo ⟨[], Windows.initRec, "", ""⟩
          (blockBLines "Office" [⟨"11:22:33:44:55:66", "72", 72, "10"⟩] ++ [])
        = Windows.scanGo ⟨[] ++ (if 0 < (specBestTriple initTriple [⟨"11:22:33:44:55:66", "72", 72, "10"⟩]).sigVal then [recOfTriple "Office" (specBestTriple initTriple [⟨"11:22:33:44:55:66", "72", 72, "10"⟩])] else []), Windows.initRec, lm, ls⟩ []
      ∧ (∀ t ∈ [(⟨"11:22:33:44:55:66", "72", 72, "10"⟩ : TripleB)],
          t.sigVal ≤ (specBestTriple initTriple [⟨"11:22:33:44:55:66", "72", 72, "10"⟩]).sigVal)
      ∧ (0 < (specBestTriple initTriple [(⟨"11:22:33:44:55:66", "72", 72, "10"⟩ : TripleB)]).sigVal →
          specBestTriple initTriple [(⟨"11:22:33:44:55:66", "72", 72, "10"⟩ : TripleB)] ∈ [(⟨"11:22:33:44:55:66", "72", 72, "10"⟩ : TripleB)]) :=
  c2_amended_block_best_triple "Office" [⟨"11:22:33:44:55:66", "72", 72, "10"⟩]
    [] "" "" [] (by decide) (by decide)
